import Mathlib

/-!
Shallow embedding of the medication scheduling and dose-adherence engine of the
DIABETEC repository (`src/types.ts` storage/engine section and the fixed-time
reminder poll of `src/App.tsx`), together with theorems settling the spec's
claims about it.

Conventions of the embedding:
* JS arrays become `List`; `unshift` is cons at the head; `splice(i, 1)` is
  `List.eraseIdx`; `findIndex` (which returns `-1` on failure) becomes the
  `Option Nat`-valued `jsFindIndex`; `arr[i] = x` on a copied array is
  `List.set`.
* Optional TS fields (`fixedTimes?`, `mealTriggers?`, `context?`, ...) become
  `Option`.
* All reads of the ambient clock (`new Date()`, `Date.now()`) are gathered in a
  `Clock` value passed explicitly: `nowId` is `Date.now().toString()`, `nowISO`
  is `new Date().toISOString()`, `nowFmt` is the `toLocaleString` rendering,
  `todayStr` is `new Date().toDateString()`, and `dateOf ts` is
  `new Date(ts).toDateString()`.  The real-world coherence fact
  `dateOf nowISO = todayStr` (a freshly produced timestamp is dated today) is
  taken as a hypothesis where a theorem needs it.
* Persistence (`getProfile` / `saveProfile`) is the external store; the engine
  functions take the profile snapshot as an argument and return the new
  snapshot, exactly as the TS functions read it once and write it once.
-/

/-- `'fixed' | 'meal_relative'` (src/types.ts). -/
inductive ScheduleType where
  | fixed
  | meal_relative
deriving DecidableEq, Repr

/-- `'breakfast' | 'lunch' | 'dinner'` (src/types.ts). -/
inductive MealTime where
  | breakfast
  | lunch
  | dinner
deriving DecidableEq, Repr

/-- `'before' | 'after'` (src/types.ts). -/
inductive MealTiming where
  | before
  | after
deriving DecidableEq, Repr

/-- `MealTrigger` (src/types.ts). -/
structure MealTrigger where
  meal : MealTime
  timing : MealTiming
deriving DecidableEq, Repr

/-- `Medication` (src/types.ts). -/
structure Medication where
  id : String
  name : String
  dosage : String
  frequency : String
  instructions : String
  takenToday : Bool
  requiresFood : Option Bool := none
  scheduleType : ScheduleType
  fixedTimes : Option (List String) := none
  mealTriggers : Option (List MealTrigger) := none
deriving DecidableEq, Repr

/-- `'taken' | 'skipped'` (src/types.ts, `MedicationLog.status`). -/
inductive LogStatus where
  | taken
  | skipped
deriving DecidableEq, Repr

/-- `MedicationLog` (src/types.ts). -/
structure MedicationLog where
  id : String
  medName : String
  timestamp : String
  formattedDate : String
  context : Option String := none
  status : LogStatus
deriving DecidableEq, Repr

/-- `Meal` (src/types.ts).  The `'Low' | 'Medium' | 'High'` union and the free
text fields are kept as strings; the claims only need these fields to exist so
that frame conditions can mention them. -/
structure Meal where
  name : String
  description : String
  ingredients : List String
  calories : Nat
  glycemicIndex : String
  suitableFor : List String
  imageUrl : Option String := none
deriving DecidableEq, Repr

/-- Element type of `ExerciseRoutine.exercises` (src/types.ts). -/
structure Exercise where
  name : String
  reps : String
  duration : Option String := none
  visualDescription : Option String := none
  tips : Option String := none
deriving DecidableEq, Repr

/-- `ExerciseRoutine` (src/types.ts). -/
structure ExerciseRoutine where
  title : String
  durationMinutes : Nat
  intensity : String
  description : String
  medicalTip : Option String := none
  exercises : List Exercise
  safetyNotes : String
deriving DecidableEq, Repr

/-- `UserProfile` (src/types.ts). -/
structure UserProfile where
  id : Option String := none
  name : String
  age : Nat
  gender : String
  height : Nat
  weight : Nat
  activityLevel : String
  diagnoses : List String
  allowedFoods : List String
  forbiddenFoods : List String
  allergies : List String
  goals : String
  medications : List Medication
  history : List MedicationLog
  onboardingComplete : Bool
  mealPlan : Option (List Meal) := none
  exerciseRoutine : Option ExerciseRoutine := none
deriving DecidableEq, Repr

/-- The values the engine reads from the ambient clock during one operation:
`nowId = Date.now().toString()`, `nowISO = new Date().toISOString()`,
`nowFmt = new Date().toLocaleString(...)`, `todayStr = new Date().toDateString()`
and `dateOf ts = new Date(ts).toDateString()`. -/
structure Clock where
  nowId : String
  nowISO : String
  nowFmt : String
  todayStr : String
  dateOf : String → String

/-- JS `Array.prototype.findIndex`: index of the first element satisfying the
predicate (`none` models the JS return value `-1`). -/
def jsFindIndex (p : α → Bool) : List α → Option Nat
  | [] => none
  | a :: l => if p a then some 0 else (jsFindIndex p l).map (· + 1)

/-- `getTargetDoses` (src/types.ts).  JS note: an empty array is truthy, so the
guard `med.fixedTimes` only tests presence, and `length || 1` turns a zero
length into 1. -/
def getTargetDoses (med : Medication) : Nat :=
  if med.scheduleType = ScheduleType.fixed ∧ med.fixedTimes.isSome then
    match med.fixedTimes with
    | some ts => if ts.length = 0 then 1 else ts.length
    | none => 1
  else if med.scheduleType = ScheduleType.meal_relative ∧ med.mealTriggers.isSome then
    match med.mealTriggers with
    | some ms => if ms.length = 0 then 1 else ms.length
    | none => 1
  else 1

/-- The today-count filter that `recordMedicationDose` and
`removeLastMedicationDose` (src/types.ts) both inline:
`history.filter(h => h.medName === name && new Date(h.timestamp).toDateString() === todayStr).length`.
This is also exactly the spec's `countToday(medName)` (date-only, name-matched). -/
def countTodayByName (c : Clock) (history : List MedicationLog) (name : String) : Nat :=
  (history.filter (fun h => h.medName == name && c.dateOf h.timestamp == c.todayStr)).length

/-- `getTodayDoseCount` (src/types.ts).  Faithful to the source, including the
first disjunct `h.medName === medId`, which is not date-restricted.  The
`getProfile()` read becomes the `profile` argument; `find(...)?.name` compared
with `===` against a string is `false` when the find misses. -/
def getTodayDoseCount (c : Clock) (profile : UserProfile) (history : List MedicationLog)
    (medId : String) : Nat :=
  (history.filter (fun h =>
    h.medName == medId ||
    ((match profile.medications.find? (fun m => m.id == medId) with
      | some m => h.medName == m.name
      | none => false) && c.dateOf h.timestamp == c.todayStr))).length

/-- `recordMedicationDose` (src/types.ts).  The second `match` mirrors the JS
array access `profile.medications[medIndex]`, which always succeeds after the
`medIndex === -1` early return. -/
def recordMedicationDose (c : Clock) (profile : UserProfile) (medId : String)
    (context : String := "Manual") : UserProfile :=
  match jsFindIndex (fun m => m.id == medId) profile.medications with
  | none => profile
  | some medIndex =>
    match profile.medications.get? medIndex with
    | none => profile
    | some med =>
      let logEntry : MedicationLog :=
        { id := c.nowId
          medName := med.name
          timestamp := c.nowISO
          formattedDate := c.nowFmt
          status := LogStatus.taken
          context := some context }
      let newHistory := logEntry :: profile.history
      let takenCount := countTodayByName c newHistory med.name
      let target := getTargetDoses med
      let isFullyCompleted := decide (target ≤ takenCount)
      let updatedMeds := profile.medications.set medIndex { med with takenToday := isFullyCompleted }
      { profile with medications := updatedMeds, history := newHistory }

/-- `removeLastMedicationDose` (src/types.ts): `findIndex` + `splice(i, 1)` on
the copied history, then recomputation of the `takenToday` cache. -/
def removeLastMedicationDose (c : Clock) (profile : UserProfile) (medId : String) : UserProfile :=
  match jsFindIndex (fun m => m.id == medId) profile.medications with
  | none => profile
  | some medIndex =>
    match profile.medications.get? medIndex with
    | none => profile
    | some med =>
      let history := profile.history
      let history1 :=
        match jsFindIndex
            (fun h => h.medName == med.name && c.dateOf h.timestamp == c.todayStr) history with
        | some logIndexToRemove => history.eraseIdx logIndexToRemove
        | none => history
      let takenCount := countTodayByName c history1 med.name
      let target := getTargetDoses med
      let updatedMeds :=
        profile.medications.set medIndex { med with takenToday := decide (target ≤ takenCount) }
      { profile with medications := updatedMeds, history := history1 }

/-- `deleteMedication` (src/types.ts). -/
def deleteMedication (profile : UserProfile) (medId : String) : UserProfile :=
  let updatedMeds := profile.medications.filter (fun m => !(m.id == medId))
  { profile with medications := updatedMeds }

/-- `resetDailyTracking` (src/types.ts): sets `takenToday := false` on every
medication; the ledger is not touched. -/
def resetDailyTracking (profile : UserProfile) : UserProfile :=
  let updatedMeds := profile.medications.map (fun med => { med with takenToday := false })
  { profile with medications := updatedMeds }

/-- The cache/ledger consistency relation of the spec: every stored `takenToday`
flag agrees with the fresh adherence evaluation `countToday(name) ≥ target`. -/
def cacheConsistent (c : Clock) (p : UserProfile) : Prop :=
  ∀ m ∈ p.medications,
    m.takenToday = true ↔ getTargetDoses m ≤ countTodayByName c p.history m.name

instance (c : Clock) (p : UserProfile) : Decidable (cacheConsistent c p) := by
  unfold cacheConsistent
  infer_instance

/-- `timeStr.split(':')` on the character list of the string. -/
def splitOnColon : List Char → List (List Char)
  | [] => [[]]
  | c :: rest =>
    match splitOnColon rest with
    | [] => [[]]
    | p :: ps => if c = ':' then [] :: p :: ps else (c :: p) :: ps

/-- JS `Number(...)` restricted to the strings that occur here: a digit string
parses to its value, the empty string to 0 (as in JS), anything else to `none`
(standing for `NaN`). -/
def jsNumberOfDigits (cs : List Char) : Option Nat :=
  cs.foldl
    (fun acc c =>
      match acc with
      | none => none
      | some n => if c.isDigit then some (n * 10 + (c.toNat - 48)) else none)
    (some 0)

/-- `getMinutes` inside `checkMedications` (src/App.tsx):
`const [h, m] = timeStr.split(':').map(Number); return h * 60 + m`.
The destructuring reads the first two parts; a missing or non-numeric part
gives `NaN` in JS, for which both window comparisons below are false, so it is
modelled as `none` (producing no reminder, as in the source). -/
def getMinutesOfDay (timeStr : String) : Option Int :=
  match (splitOnColon timeStr.data).map jsNumberOfDigits with
  | some h :: some m :: _ => some ((h : Int) * 60 + m)
  | _ => none

/-- One reminder request emitted by the poll: the browser notification (or the
toast fallback) with its session de-duplication key. -/
structure ReminderEvent where
  key : String
  title : String
  body : String
deriving DecidableEq, Repr

/-- Inner body of `checkMedications` (src/App.tsx) for one medication and one
configured time: possibly emits a primary reminder and updates the session
`sentNotifications` set (modelled as a list of keys). -/
def checkOneTime (med : Medication) (currentMinutes : Int) (dayOfMonth : Nat)
    (acc : List String × List ReminderEvent) (timeStr : String) :
    List String × List ReminderEvent :=
  match getMinutesOfDay timeStr with
  | none => acc
  | some scheduledMinutes =>
    let diff := currentMinutes - scheduledMinutes
    let notifKey := med.id ++ "-" ++ timeStr ++ "-" ++ toString dayOfMonth
    if 0 ≤ diff ∧ diff ≤ 2 then
      if notifKey ∈ acc.1 then acc
      else
        (notifKey :: acc.1,
         acc.2 ++ [{ key := notifKey
                     title := "Hora de tu medicamento"
                     body := "Es hora de tomar: " ++ med.name ++ " (" ++ med.dosage ++ ")" }])
    else acc

/-- Body of the `profile.medications.forEach` loop of `checkMedications`
(src/App.tsx) for one medication: only `fixed`-schedule medications with a
present `fixedTimes` array and `takenToday = false` are considered. -/
def checkMedStep (currentMinutes : Int) (dayOfMonth : Nat)
    (acc : List String × List ReminderEvent) (med : Medication) :
    List String × List ReminderEvent :=
  if med.scheduleType = ScheduleType.fixed ∧ med.fixedTimes.isSome ∧ med.takenToday = false then
    (med.fixedTimes.getD []).foldl (checkOneTime med currentMinutes dayOfMonth) acc
  else acc

/-- One run of `checkMedications` (src/App.tsx): iterate over the medication
list.  Returns the updated session key set and the reminders emitted by this
poll tick. -/
def checkMedications (profile : UserProfile) (currentMinutes : Int) (dayOfMonth : Nat)
    (sent : List String) : List String × List ReminderEvent :=
  profile.medications.foldl (checkMedStep currentMinutes dayOfMonth) (sent, [])

/-- One poll tick of the day's polling loop: run `checkMedications` against the
current session key set and collect the tick's emissions. -/
def pollStep (profile : UserProfile) (dayOfMonth : Nat)
    (acc : List String × List ReminderEvent) (currentMinutes : Int) :
    List String × List ReminderEvent :=
  let step := checkMedications profile currentMinutes dayOfMonth acc.1
  (step.1, acc.2 ++ step.2)

/-- A day's polling loop (`setInterval(checkMedications, 30000)` in
src/App.tsx): the profile and the day stay fixed, the session key set is
threaded from tick to tick, and all emitted reminders are collected. -/
def runPolls (profile : UserProfile) (dayOfMonth : Nat) (ticks : List Int)
    (sent : List String) : List String × List ReminderEvent :=
  ticks.foldl (pollStep profile dayOfMonth) (sent, [])

/-- Number of reminders in a list carrying a given de-duplication key. -/
def keyCount (evs : List ReminderEvent) (k : String) : Nat :=
  evs.countP (fun e => e.key == k)

/-- The ledger entry `recordMedicationDose` builds from the clock, the
medication and the context. -/
def newLogEntry (c : Clock) (med : Medication) (ctx : String) : MedicationLog :=
  { id := c.nowId
    medName := med.name
    timestamp := c.nowISO
    formattedDate := c.nowFmt
    status := LogStatus.taken
    context := some ctx }

/-- The freshly recomputed `takenToday` cache value: target met by today's
count over the given ledger. -/
def takenFlag (c : Clock) (history : List MedicationLog) (med : Medication) : Bool :=
  decide (getTargetDoses med ≤ countTodayByName c history med.name)

/-! ### Concrete sample data

Concrete clocks, medications and profiles used to instantiate the theorems and
to exhibit counterexamples.  `sampleClock` maps the one deliberately
"yesterday" timestamp to Friday's date string and every other timestamp to
today's, so a freshly minted `nowISO` is dated today, as in the real system. -/

def sampleClock : Clock :=
  { nowId := "1760169600000"
    nowISO := "2026-10-11T08:00:00.000Z"
    nowFmt := "sab 08:00"
    todayStr := "Sat Oct 11 2026"
    dateOf := fun ts =>
      if ts = "2026-10-10T09:00:00.000Z" then "Fri Oct 10 2026" else "Sat Oct 11 2026" }

def metformina : Medication :=
  { id := "med1"
    name := "Metformina"
    dosage := "500 mg"
    frequency := "Cada 12 horas"
    instructions := ""
    takenToday := false
    scheduleType := ScheduleType.fixed
    fixedTimes := some ["08:00", "20:00"] }

def aspirina : Medication :=
  { id := "med2"
    name := "Aspirina"
    dosage := "100 mg"
    frequency := "Diaria"
    instructions := ""
    takenToday := false
    scheduleType := ScheduleType.meal_relative
    mealTriggers := some [{ meal := MealTime.lunch, timing := MealTiming.before }] }

def baseProfile : UserProfile :=
  { name := "Ana"
    age := 60
    gender := "female"
    height := 160
    weight := 70
    activityLevel := "light"
    diagnoses := ["Diabetes Type 2"]
    allowedFoods := []
    forbiddenFoods := []
    allergies := []
    goals := "Control glucemico"
    medications := []
    history := []
    onboardingComplete := true
    mealPlan := some []
    exerciseRoutine := none }

def sampleProfile : UserProfile :=
  { baseProfile with medications := [metformina, aspirina] }

/-- A single-dose fixed medication whose cache says "done". -/
def metDone : Medication :=
  { metformina with takenToday := true, fixedTimes := some ["08:00"] }

/-- A ledger entry for Metformina recorded earlier today. -/
def todayMetEntry : MedicationLog :=
  { id := "100"
    medName := "Metformina"
    timestamp := "2026-10-11T07:00:00.000Z"
    formattedDate := "sab 07:00"
    context := some "Scheduled: 08:00"
    status := LogStatus.taken }

/-- Profile whose cache is consistent: `metDone` is marked taken and has one
today-entry against a target of one. -/
def doneProfile : UserProfile :=
  { baseProfile with medications := [metDone], history := [todayMetEntry] }

/-- Profile whose cache is stale: `metDone` is marked taken but the ledger has
no entry at all (e.g. the day rolled over). -/
def staleProfile : UserProfile :=
  { baseProfile with medications := [metDone], history := [] }

/-- A medication whose `name` coincides with its `id`, as happens for
AI-ingested medications; exercises the undated first disjunct of
`getTodayDoseCount`. -/
def aspirinaIdName : Medication :=
  { aspirina with id := "Aspirina", name := "Aspirina" }

/-- A ledger entry for Aspirina dated yesterday. -/
def yesterdayAspEntry : MedicationLog :=
  { id := "99"
    medName := "Aspirina"
    timestamp := "2026-10-10T09:00:00.000Z"
    formattedDate := "vie 09:00"
    context := some "Manual"
    status := LogStatus.taken }

def bugProfile : UserProfile :=
  { baseProfile with medications := [aspirinaIdName], history := [yesterdayAspEntry] }

/-- Metformina with two fixed times five minutes apart (spec Scenario F). -/
def metTwoClose : Medication :=
  { metformina with fixedTimes := some ["08:00", "08:05"] }

def pollProfile : UserProfile :=
  { baseProfile with medications := [metTwoClose] }

/-! ### Invariant for the reminder de-duplication proof -/

/-- Invariant threaded through the polling fold, for one de-duplication key `k`
and one initial session set `sent0`.  `b` is the number of reminders carrying
`k` emitted by earlier poll ticks; `acc` is the current session set paired with
the reminders emitted since.  It says: keys of the initial set stay in the set
and are never emitted; `k` is emitted at most once in total; once emitted (or
initially present), `k` is in the session set; and `k` can only be in the
session set because it started there or was emitted. -/
def KInv (sent0 : List String) (k : String) (b : Nat)
    (acc : List String × List ReminderEvent) : Prop :=
  (k ∈ sent0 → k ∈ acc.1) ∧
  b + keyCount acc.2 k ≤ 1 ∧
  (1 ≤ b + keyCount acc.2 k → k ∈ acc.1) ∧
  (k ∈ sent0 → b + keyCount acc.2 k = 0) ∧
  (k ∈ acc.1 → k ∈ sent0 ∨ 1 ≤ b + keyCount acc.2 k)

/-! ### Helper lemmas about the list primitives -/

theorem jsFindIndex_eq_none (p : α → Bool) (l : List α) (h : ∀ x ∈ l, p x = false) :
    jsFindIndex p l = none := by
  induction l with
  | nil => rfl
  | cons a l ih =>
    simp only [jsFindIndex, h a (List.mem_cons_self a l),
      ih (fun x hx => h x (List.mem_cons_of_mem a hx))]
    rfl

theorem jsFindIndex_append_cons (p : α → Bool) (l r : List α) (a : α)
    (hl : ∀ x ∈ l, p x = false) (ha : p a = true) :
    jsFindIndex p (l ++ a :: r) = some l.length := by
  induction l with
  | nil => simp [jsFindIndex, ha]
  | cons b l ih =>
    have hb : p b = false := hl b (List.mem_cons_self b l)
    have ih' := ih (fun x hx => hl x (List.mem_cons_of_mem b hx))
    simp [List.cons_append, jsFindIndex, hb, ih']

theorem get?_append_cons (l : List α) (a : α) (r : List α) :
    (l ++ a :: r).get? l.length = some a := by
  induction l with
  | nil => rfl
  | cons b l ih => simpa using ih

theorem set_append_cons (l : List α) (a b : α) (r : List α) :
    (l ++ a :: r).set l.length b = l ++ b :: r := by
  induction l with
  | nil => rfl
  | cons x l ih => simp [List.set, ih]

theorem eraseIdx_append_cons (l : List α) (a : α) (r : List α) :
    (l ++ a :: r).eraseIdx l.length = l ++ r := by
  induction l with
  | nil => rfl
  | cons x l ih => simp [List.eraseIdx, ih]

theorem countTodayByName_cons_hit (c : Clock) (e : MedicationLog)
    (history : List MedicationLog) (name : String)
    (h : (e.medName == name && c.dateOf e.timestamp == c.todayStr) = true) :
    countTodayByName c (e :: history) name = countTodayByName c history name + 1 := by
  simp [countTodayByName, List.filter_cons, h]

theorem countTodayByName_cons_miss (c : Clock) (e : MedicationLog)
    (history : List MedicationLog) (name : String)
    (h : (e.medName == name && c.dateOf e.timestamp == c.todayStr) = false) :
    countTodayByName c (e :: history) name = countTodayByName c history name := by
  simp [countTodayByName, List.filter_cons, h]

theorem countTodayByName_append (c : Clock) (h1 h2 : List MedicationLog) (name : String) :
    countTodayByName c (h1 ++ h2) name =
      countTodayByName c h1 name + countTodayByName c h2 name := by
  simp [countTodayByName, List.filter_append]

/-- `jsFindIndex` hit: the list splits at the found index, everything before
fails the predicate and the found element satisfies it. -/
theorem jsFindIndex_decomp (p : α → Bool) (l : List α) (i : Nat)
    (h : jsFindIndex p l = some i) :
    ∃ l1 e l2, l = l1 ++ e :: l2 ∧ l1.length = i ∧ p e = true ∧ ∀ x ∈ l1, p x = false := by
  induction l generalizing i with
  | nil => simp [jsFindIndex] at h
  | cons a l ih =>
    by_cases ha : p a = true
    · simp only [jsFindIndex, ha, if_true, Option.some.injEq] at h
      have hi : i = 0 := by omega
      exact ⟨[], a, l, by simp, by simp [hi], ha, by simp⟩
    · have ha' : p a = false := by simpa using ha
      simp only [jsFindIndex, ha', if_false, Bool.false_eq_true, Option.map_eq_some'] at h
      obtain ⟨j, hj, rfl⟩ := h
      obtain ⟨l1, e, l2, rfl, hlen, he, hall⟩ := ih j hj
      exact ⟨a :: l1, e, l2, rfl, by simp [hlen], he,
        fun x hx => by rcases List.mem_cons.mp hx with rfl | hx; exact ha'; exact hall x hx⟩


/-! ### Reduction of the engine operations at a resolved medication id -/

theorem recordMedicationDose_eq (c : Clock) (p : UserProfile) (medId ctx : String)
    (l r : List Medication) (med : Medication)
    (hmeds : p.medications = l ++ med :: r)
    (hl : ∀ m ∈ l, m.id ≠ medId) (hid : med.id = medId) :
    recordMedicationDose c p medId ctx =
      { p with
        medications := l ++ { med with takenToday := takenFlag c (newLogEntry c med ctx :: p.history) med } :: r
        history := newLogEntry c med ctx :: p.history } := by
  have hfi : jsFindIndex (fun m => m.id == medId) p.medications = some l.length := by
    rw [hmeds]
    exact jsFindIndex_append_cons _ _ _ _ (fun x hx => by simp [hl x hx]) (by simp [hid])
  have hget : p.medications.get? l.length = some med := by
    rw [hmeds]; exact get?_append_cons l med r
  have hset : ∀ b : Bool,
      p.medications.set l.length { med with takenToday := b } =
        l ++ { med with takenToday := b } :: r := by
    intro b; rw [hmeds]; exact set_append_cons l med _ r
  simp only [recordMedicationDose, hfi, hget, hset, newLogEntry, takenFlag]

theorem removeLastMedicationDose_eq_found (c : Clock) (p : UserProfile) (medId : String)
    (l r : List Medication) (med : Medication)
    (h1 h2 : List MedicationLog) (e : MedicationLog)
    (hmeds : p.medications = l ++ med :: r)
    (hl : ∀ m ∈ l, m.id ≠ medId) (hid : med.id = medId)
    (hhist : p.history = h1 ++ e :: h2)
    (he : (e.medName == med.name && c.dateOf e.timestamp == c.todayStr) = true)
    (hfirst : ∀ x ∈ h1, (x.medName == med.name && c.dateOf x.timestamp == c.todayStr) = false) :
    removeLastMedicationDose c p medId =
      { p with
        medications := l ++ { med with takenToday := takenFlag c (h1 ++ h2) med } :: r
        history := h1 ++ h2 } := by
  have hfi : jsFindIndex (fun m => m.id == medId) p.medications = some l.length := by
    rw [hmeds]
    exact jsFindIndex_append_cons _ _ _ _ (fun x hx => by simp [hl x hx]) (by simp [hid])
  have hget : p.medications.get? l.length = some med := by
    rw [hmeds]; exact get?_append_cons l med r
  have hfh : jsFindIndex
      (fun h => h.medName == med.name && c.dateOf h.timestamp == c.todayStr) p.history =
        some h1.length := by
    rw [hhist]; exact jsFindIndex_append_cons _ _ _ _ hfirst he
  have herase : p.history.eraseIdx h1.length = h1 ++ h2 := by
    rw [hhist]; exact eraseIdx_append_cons h1 e h2
  have hset : ∀ b : Bool,
      p.medications.set l.length { med with takenToday := b } =
        l ++ { med with takenToday := b } :: r := by
    intro b; rw [hmeds]; exact set_append_cons l med _ r
  simp only [removeLastMedicationDose, hfi, hget, hfh, herase, hset, takenFlag]

theorem removeLastMedicationDose_eq_none (c : Clock) (p : UserProfile) (medId : String)
    (l r : List Medication) (med : Medication)
    (hmeds : p.medications = l ++ med :: r)
    (hl : ∀ m ∈ l, m.id ≠ medId) (hid : med.id = medId)
    (hnone : ∀ x ∈ p.history,
      (x.medName == med.name && c.dateOf x.timestamp == c.todayStr) = false) :
    removeLastMedicationDose c p medId =
      { p with
        medications := l ++ { med with takenToday := takenFlag c p.history med } :: r
        history := p.history } := by
  have hfi : jsFindIndex (fun m => m.id == medId) p.medications = some l.length := by
    rw [hmeds]
    exact jsFindIndex_append_cons _ _ _ _ (fun x hx => by simp [hl x hx]) (by simp [hid])
  have hget : p.medications.get? l.length = some med := by
    rw [hmeds]; exact get?_append_cons l med r
  have hfh : jsFindIndex
      (fun h => h.medName == med.name && c.dateOf h.timestamp == c.todayStr) p.history =
        none := jsFindIndex_eq_none _ _ hnone
  have hset : ∀ b : Bool,
      p.medications.set l.length { med with takenToday := b } =
        l ++ { med with takenToday := b } :: r := by
    intro b; rw [hmeds]; exact set_append_cons l med _ r
  simp only [removeLastMedicationDose, hfi, hget, hfh, hset, takenFlag]

/-! ### Claims -/

/-- Claim C2: for a `fixed`-schedule medication the target dose count is
`max 1 |fixedTimes|`, and for a `meal_relative` one it is `max 1 |mealTriggers|`;
in particular it is at least 1 even when the authoritative list is empty
(`length || 1` in JS) or absent (the truthiness guard falls through to the
default 1). -/
theorem getTargetDoses_eq_max_one (med : Medication) :
    (med.scheduleType = ScheduleType.fixed →
      getTargetDoses med = max 1 (med.fixedTimes.getD []).length) ∧
    (med.scheduleType = ScheduleType.meal_relative →
      getTargetDoses med = max 1 (med.mealTriggers.getD []).length) := by
  constructor
  · intro h
    rcases hft : med.fixedTimes with _ | ts
    · simp [getTargetDoses, h, hft]
    · rcases ts with _ | ⟨t, ts⟩ <;> simp [getTargetDoses, h, hft]
  · intro h
    rcases hmt : med.mealTriggers with _ | ms
    · simp [getTargetDoses, h, hmt]
    · rcases ms with _ | ⟨m, ms⟩ <;> simp [getTargetDoses, h, hmt]

theorem getTargetDoses_eq_max_one_witness :
    getTargetDoses metformina = max 1 (metformina.fixedTimes.getD []).length ∧
    getTargetDoses aspirina = max 1 (aspirina.mealTriggers.getD []).length :=
  ⟨(getTargetDoses_eq_max_one metformina).1 rfl,
   (getTargetDoses_eq_max_one aspirina).2 rfl⟩

/-- Claim C3: when the id resolves, `recordMedicationDose` prepends exactly one
ledger entry (status `taken`, the medication's current name, the given context,
the current timestamp) and raises that name's today-count by exactly 1.  The
hypotheses only fix where the medication sits in the list and that a fresh
timestamp is dated today; the profile state is otherwise arbitrary, so this
holds also after the day's target is already met (no idempotence, no cap). -/
theorem recordMedicationDose_appends_one (c : Clock) (p : UserProfile) (medId ctx : String)
    (l r : List Medication) (med : Medication)
    (hmeds : p.medications = l ++ med :: r)
    (hl : ∀ m ∈ l, m.id ≠ medId) (hid : med.id = medId)
    (hdate : c.dateOf c.nowISO = c.todayStr) :
    (recordMedicationDose c p medId ctx).history = newLogEntry c med ctx :: p.history ∧
    (newLogEntry c med ctx).status = LogStatus.taken ∧
    (newLogEntry c med ctx).medName = med.name ∧
    (newLogEntry c med ctx).context = some ctx ∧
    (newLogEntry c med ctx).timestamp = c.nowISO ∧
    countTodayByName c (recordMedicationDose c p medId ctx).history med.name =
      countTodayByName c p.history med.name + 1 := by
  rw [recordMedicationDose_eq c p medId ctx l r med hmeds hl hid]
  refine ⟨rfl, rfl, rfl, rfl, rfl, ?_⟩
  exact countTodayByName_cons_hit c _ _ _ (by simp [newLogEntry, hdate])

theorem recordMedicationDose_appends_one_witness :
    (recordMedicationDose sampleClock sampleProfile "med1" "Manual").history =
      newLogEntry sampleClock metformina "Manual" :: sampleProfile.history ∧
    countTodayByName sampleClock
        (recordMedicationDose sampleClock sampleProfile "med1" "Manual").history
        metformina.name =
      countTodayByName sampleClock sampleProfile.history metformina.name + 1 := by
  have h := recordMedicationDose_appends_one sampleClock sampleProfile "med1" "Manual"
    [] [aspirina] metformina rfl (by simp) rfl (by decide)
  exact ⟨h.1, h.2.2.2.2.2⟩

/-- Claim C10 (frame of `recordMedicationDose`): when the id resolves, the only
changes are the single new head entry of the history and the target
medication's `takenToday` field; the surrounding medications, the target
medication's other fields (captured by the `{ med with takenToday := b }`
shape) and every other profile field are unchanged. -/
theorem recordMedicationDose_frame (c : Clock) (p : UserProfile) (medId ctx : String)
    (l r : List Medication) (med : Medication)
    (hmeds : p.medications = l ++ med :: r)
    (hl : ∀ m ∈ l, m.id ≠ medId) (hid : med.id = medId) :
    (recordMedicationDose c p medId ctx).history = newLogEntry c med ctx :: p.history ∧
    (∃ b : Bool,
      (recordMedicationDose c p medId ctx).medications =
        l ++ { med with takenToday := b } :: r) ∧
    (recordMedicationDose c p medId ctx).id = p.id ∧
    (recordMedicationDose c p medId ctx).name = p.name ∧
    (recordMedicationDose c p medId ctx).age = p.age ∧
    (recordMedicationDose c p medId ctx).gender = p.gender ∧
    (recordMedicationDose c p medId ctx).height = p.height ∧
    (recordMedicationDose c p medId ctx).weight = p.weight ∧
    (recordMedicationDose c p medId ctx).activityLevel = p.activityLevel ∧
    (recordMedicationDose c p medId ctx).diagnoses = p.diagnoses ∧
    (recordMedicationDose c p medId ctx).allowedFoods = p.allowedFoods ∧
    (recordMedicationDose c p medId ctx).forbiddenFoods = p.forbiddenFoods ∧
    (recordMedicationDose c p medId ctx).allergies = p.allergies ∧
    (recordMedicationDose c p medId ctx).goals = p.goals ∧
    (recordMedicationDose c p medId ctx).onboardingComplete = p.onboardingComplete ∧
    (recordMedicationDose c p medId ctx).mealPlan = p.mealPlan ∧
    (recordMedicationDose c p medId ctx).exerciseRoutine = p.exerciseRoutine := by
  rw [recordMedicationDose_eq c p medId ctx l r med hmeds hl hid]
  exact ⟨rfl, ⟨_, rfl⟩, rfl, rfl, rfl, rfl, rfl, rfl, rfl, rfl, rfl, rfl, rfl, rfl,
    rfl, rfl, rfl⟩

theorem recordMedicationDose_frame_witness :
    (recordMedicationDose sampleClock sampleProfile "med2" "Manual").history =
      newLogEntry sampleClock aspirina "Manual" :: sampleProfile.history ∧
    (∃ b : Bool,
      (recordMedicationDose sampleClock sampleProfile "med2" "Manual").medications =
        [metformina] ++ { aspirina with takenToday := b } :: []) ∧
    (recordMedicationDose sampleClock sampleProfile "med2" "Manual").mealPlan =
      sampleProfile.mealPlan := by
  have h := recordMedicationDose_frame sampleClock sampleProfile "med2" "Manual"
    [metformina] [] aspirina rfl (by decide) rfl
  exact ⟨h.1, h.2.1, h.2.2.2.2.2.2.2.2.2.2.2.2.2.2.2.1⟩

/-- Claim C7: for an id that resolves to no medication, `recordMedicationDose`,
`removeLastMedicationDose` and `deleteMedication` all return the profile
unchanged; no error is raised (the functions are total). -/
theorem missing_id_noops (c : Clock) (p : UserProfile) (medId ctx : String)
    (h : ∀ m ∈ p.medications, m.id ≠ medId) :
    recordMedicationDose c p medId ctx = p ∧
    removeLastMedicationDose c p medId = p ∧
    deleteMedication p medId = p := by
  have hfi : jsFindIndex (fun m => m.id == medId) p.medications = none :=
    jsFindIndex_eq_none _ _ (fun x hx => by simp [h x hx])
  refine ⟨?_, ?_, ?_⟩
  · simp only [recordMedicationDose, hfi]
  · simp only [removeLastMedicationDose, hfi]
  · have hfilter : p.medications.filter (fun m => !(m.id == medId)) = p.medications := by
      rw [List.filter_eq_self]
      intro a ha; simp [h a ha]
    simp only [deleteMedication, hfilter]

theorem missing_id_noops_witness :
    recordMedicationDose sampleClock sampleProfile "ghost" "Manual" = sampleProfile ∧
    removeLastMedicationDose sampleClock sampleProfile "ghost" = sampleProfile ∧
    deleteMedication sampleProfile "ghost" = sampleProfile :=
  missing_id_noops sampleClock sampleProfile "ghost" "Manual" (by decide)

/-- Claim C8 (frame of `deleteMedication`): when the id resolves (and no other
medication carries that id), exactly that medication is removed from the list;
the whole ledger — including the entries recorded under the deleted
medication's name — and every other profile field are unchanged. -/
theorem deleteMedication_frame (p : UserProfile) (medId : String)
    (l r : List Medication) (med : Medication)
    (hmeds : p.medications = l ++ med :: r) (hid : med.id = medId)
    (hl : ∀ m ∈ l, m.id ≠ medId) (hr : ∀ m ∈ r, m.id ≠ medId) :
    (deleteMedication p medId).medications = l ++ r ∧
    (deleteMedication p medId).history = p.history ∧
    (deleteMedication p medId).id = p.id ∧
    (deleteMedication p medId).name = p.name ∧
    (deleteMedication p medId).age = p.age ∧
    (deleteMedication p medId).gender = p.gender ∧
    (deleteMedication p medId).height = p.height ∧
    (deleteMedication p medId).weight = p.weight ∧
    (deleteMedication p medId).activityLevel = p.activityLevel ∧
    (deleteMedication p medId).diagnoses = p.diagnoses ∧
    (deleteMedication p medId).allowedFoods = p.allowedFoods ∧
    (deleteMedication p medId).forbiddenFoods = p.forbiddenFoods ∧
    (deleteMedication p medId).allergies = p.allergies ∧
    (deleteMedication p medId).goals = p.goals ∧
    (deleteMedication p medId).onboardingComplete = p.onboardingComplete ∧
    (deleteMedication p medId).mealPlan = p.mealPlan ∧
    (deleteMedication p medId).exerciseRoutine = p.exerciseRoutine := by
  have h1 : l.filter (fun m => !(m.id == medId)) = l :=
    List.filter_eq_self.mpr (fun a ha => by simp [hl a ha])
  have h2 : r.filter (fun m => !(m.id == medId)) = r :=
    List.filter_eq_self.mpr (fun a ha => by simp [hr a ha])
  have hfilter : p.medications.filter (fun m => !(m.id == medId)) = l ++ r := by
    rw [hmeds, List.filter_append, List.filter_cons]
    simp [hid, h1, h2]
  refine ⟨?_, rfl, rfl, rfl, rfl, rfl, rfl, rfl, rfl, rfl, rfl, rfl, rfl, rfl, rfl,
    rfl, rfl⟩
  simp only [deleteMedication, hfilter]

theorem deleteMedication_frame_witness :
    (deleteMedication doneProfile "med1").medications = [] ++ [] ∧
    (deleteMedication doneProfile "med1").history = doneProfile.history := by
  have h := deleteMedication_frame doneProfile "med1" [] [] metDone rfl rfl
    (by simp) (by simp)
  exact ⟨h.1, h.2.1⟩

/-- Claim C6 (code bug): `getTodayDoseCount` is documented as "count today's
doses", but its first filter disjunct `h.medName === medId` is not restricted
to today's date.  For a medication whose name equals its id (`aspirinaIdName`),
a single entry dated yesterday is counted: the function returns 1 while the
date-restricted count of the claim (and of the engine's own inline
recomputation) is 0. -/
theorem getTodayDoseCount_counts_prior_day :
    getTodayDoseCount sampleClock bugProfile bugProfile.history "Aspirina" = 1 ∧
    countTodayByName sampleClock bugProfile.history "Aspirina" = 0 := by
  constructor
  · decide
  · decide

/-- Claim C4 counterexample: on a profile with a stale cache (`metDone` is
marked taken but the ledger is empty), `removeLastMedicationDose` for an id
with no today-entry is *not* a no-op: it rewrites the `takenToday` cache, so
the returned profile differs from the input. -/
theorem removeLastMedicationDose_not_noop :
    removeLastMedicationDose sampleClock staleProfile "med1" ≠ staleProfile := by
  decide

/-- Claim C4 (amended): when the id resolves: (a) if the ledger holds a
today-entry for the medication's name, exactly the first such entry — the most
recently added one under the newest-first ledger discipline — is removed, and
all prior-day entries and other medications' entries are kept in order; (b) if
it holds none, the ledger is unchanged, but the medication's `takenToday`
cache is still recomputed, so the profile is returned value-unchanged exactly
when the stored cache already equals the fresh flag. -/
theorem removeLastMedicationDose_spec (c : Clock) (p : UserProfile) (medId : String)
    (l r : List Medication) (med : Medication)
    (hmeds : p.medications = l ++ med :: r)
    (hl : ∀ m ∈ l, m.id ≠ medId) (hid : med.id = medId) :
    (∀ h1 h2 e, p.history = h1 ++ e :: h2 →
      (e.medName == med.name && c.dateOf e.timestamp == c.todayStr) = true →
      (∀ x ∈ h1, (x.medName == med.name && c.dateOf x.timestamp == c.todayStr) = false) →
      (removeLastMedicationDose c p medId).history = h1 ++ h2) ∧
    ((∀ x ∈ p.history,
        (x.medName == med.name && c.dateOf x.timestamp == c.todayStr) = false) →
      (removeLastMedicationDose c p medId).history = p.history ∧
      (removeLastMedicationDose c p medId = p ↔
        med.takenToday = takenFlag c p.history med)) := by
  constructor
  · intro h1 h2 e hh he hf
    rw [removeLastMedicationDose_eq_found c p medId l r med h1 h2 e hmeds hl hid hh he hf]
  · intro hnone
    rw [removeLastMedicationDose_eq_none c p medId l r med hmeds hl hid hnone]
    refine ⟨rfl, ?_, ?_⟩
    · intro heq
      have h2 : l ++ { med with takenToday := takenFlag c p.history med } :: r =
          p.medications := congrArg UserProfile.medications heq
      rw [hmeds] at h2
      have h3 := List.append_cancel_left h2
      have h4 : { med with takenToday := takenFlag c p.history med } = med :=
        (List.cons_eq_cons.mp h3).1
      have h5 : takenFlag c p.history med = med.takenToday :=
        congrArg Medication.takenToday h4
      exact h5.symm
    · intro hb
      have hmed : { med with takenToday := takenFlag c p.history med } = med := by
        rw [← hb]
      rw [hmed, ← hmeds]

theorem removeLastMedicationDose_spec_witness :
    (removeLastMedicationDose sampleClock doneProfile "med1").history =
      ([] : List MedicationLog) ++ ([] : List MedicationLog) :=
  ((removeLastMedicationDose_spec sampleClock doneProfile "med1" [] [] metDone rfl
      (by simp) rfl).1) [] [] todayMetEntry rfl (by decide) (by simp)

/-- Claim C5: recording a dose and immediately undoing it for the same
resolved id restores the ledger exactly (hence its length), and leaves the
medication's stored completion flag equal to the adherence evaluation over the
pre-record ledger — i.e. `isCompleted` is back at its pre-record value. -/
theorem record_then_undo_restores (c : Clock) (p : UserProfile) (medId ctx : String)
    (l r : List Medication) (med : Medication)
    (hmeds : p.medications = l ++ med :: r)
    (hl : ∀ m ∈ l, m.id ≠ medId) (hid : med.id = medId)
    (hdate : c.dateOf c.nowISO = c.todayStr) :
    (removeLastMedicationDose c (recordMedicationDose c p medId ctx) medId).history =
      p.history ∧
    (removeLastMedicationDose c (recordMedicationDose c p medId ctx) medId).medications =
      l ++ { med with takenToday := takenFlag c p.history med } :: r := by
  have hrec := recordMedicationDose_eq c p medId ctx l r med hmeds hl hid
  have hundo := removeLastMedicationDose_eq_found c (recordMedicationDose c p medId ctx)
    medId l r
    { med with takenToday := takenFlag c (newLogEntry c med ctx :: p.history) med }
    [] p.history (newLogEntry c med ctx)
    (by rw [hrec]) hl hid
    (by rw [hrec]; rfl) (by simp [newLogEntry, hdate]) (by simp)
  constructor
  · rw [hundo]; rfl
  · rw [hundo]; rfl

theorem record_then_undo_restores_witness :
    (removeLastMedicationDose sampleClock
        (recordMedicationDose sampleClock sampleProfile "med1" "Manual") "med1").history =
      sampleProfile.history :=
  (record_then_undo_restores sampleClock sampleProfile "med1" "Manual" [] [aspirina]
    metformina rfl (by simp) rfl (by decide)).1

theorem jsFindIndex_none_forall (p : α → Bool) (l : List α)
    (h : jsFindIndex p l = none) : ∀ x ∈ l, p x = false := by
  induction l with
  | nil => simp
  | cons a l ih =>
    intro x hx
    by_cases ha : p a = true
    · simp [jsFindIndex, ha] at h
    · have ha' : p a = false := by simpa using ha
      simp only [jsFindIndex, ha', Bool.false_eq_true, if_false, Option.map_eq_none'] at h
      rcases List.mem_cons.mp hx with rfl | hx
      · exact ha'
      · exact ih h x hx

/-- Claim C1 counterexample: from a profile whose caches agree with the ledger
(`doneProfile`), `resetDailyTracking` — one of the engine operations the claim
quantifies over — produces a profile whose `takenToday` flag is false although
today's ledger count still meets the target, so the cache *is* set
inconsistently with the ledger. -/
theorem resetDailyTracking_cache_inconsistent :
    cacheConsistent sampleClock doneProfile ∧
    ¬ cacheConsistent sampleClock (resetDailyTracking doneProfile) := by
  constructor
  · decide
  · decide

/-- Claim C1 (amended): after `recordMedicationDose` or
`removeLastMedicationDose` on a profile whose caches agree with the ledger and
whose other medications do not share the operated medication's name, every
medication's `takenToday` flag again holds iff its today-count meets its
target; `resetDailyTracking`, by contrast, unconditionally sets every flag to
false (and, as the counterexample shows, may therefore leave the cache
inconsistent with a ledger that still holds today's entries). -/
theorem cache_consistency_after_ops (c : Clock) (p : UserProfile) (medId ctx : String)
    (l r : List Medication) (med : Medication)
    (hmeds : p.medications = l ++ med :: r)
    (hl : ∀ m ∈ l, m.id ≠ medId) (hid : med.id = medId)
    (hnames : ∀ m ∈ l ++ r, m.name ≠ med.name)
    (hcons : cacheConsistent c p) :
    cacheConsistent c (recordMedicationDose c p medId ctx) ∧
    cacheConsistent c (removeLastMedicationDose c p medId) ∧
    ∀ m ∈ (resetDailyTracking p).medications, m.takenToday = false := by
  have hpredm : ∀ m : Medication, m.name ≠ med.name →
      ∀ e : MedicationLog, e.medName = med.name →
      (e.medName == m.name && c.dateOf e.timestamp == c.todayStr) = false := by
    intro m hm e he
    have : (e.medName == m.name) = false := by
      rw [he]; exact beq_eq_false_iff_ne.mpr (fun hh => hm hh.symm)
    simp [this]
  refine ⟨?_, ?_, ?_⟩
  · -- recordMedicationDose
    rw [recordMedicationDose_eq c p medId ctx l r med hmeds hl hid]
    intro m hm
    have hm' : m ∈ l ++ { med with takenToday := takenFlag c (newLogEntry c med ctx :: p.history) med } :: r := hm
    show m.takenToday = true ↔
      getTargetDoses m ≤ countTodayByName c (newLogEntry c med ctx :: p.history) m.name
    rcases List.mem_append.mp hm' with hml | hmc
    · have hname : m.name ≠ med.name := hnames m (List.mem_append_left r hml)
      rw [countTodayByName_cons_miss c _ _ _
        (hpredm m hname (newLogEntry c med ctx) rfl)]
      exact hcons m (by rw [hmeds]; simp [hml])
    · rcases List.mem_cons.mp hmc with rfl | hmr
      · show takenFlag c (newLogEntry c med ctx :: p.history) med = true ↔
          getTargetDoses med ≤
            countTodayByName c (newLogEntry c med ctx :: p.history) med.name
        simp [takenFlag]
      · have hname : m.name ≠ med.name := hnames m (List.mem_append_right l hmr)
        rw [countTodayByName_cons_miss c _ _ _
          (hpredm m hname (newLogEntry c med ctx) rfl)]
        exact hcons m (by rw [hmeds]; simp [hmr])
  · -- removeLastMedicationDose
    cases hfh : jsFindIndex
        (fun h => h.medName == med.name && c.dateOf h.timestamp == c.todayStr) p.history with
    | none =>
      have hnone := jsFindIndex_none_forall _ _ hfh
      rw [removeLastMedicationDose_eq_none c p medId l r med hmeds hl hid hnone]
      intro m hm
      have hm' : m ∈ l ++ { med with takenToday := takenFlag c p.history med } :: r := hm
      show m.takenToday = true ↔ getTargetDoses m ≤ countTodayByName c p.history m.name
      rcases List.mem_append.mp hm' with hml | hmc
      · exact hcons m (by rw [hmeds]; simp [hml])
      · rcases List.mem_cons.mp hmc with rfl | hmr
        · show takenFlag c p.history med = true ↔
            getTargetDoses med ≤ countTodayByName c p.history med.name
          simp [takenFlag]
        · exact hcons m (by rw [hmeds]; simp [hmr])
    | some i =>
      obtain ⟨h1, e, h2, hh, hlen, he, hfirst⟩ := jsFindIndex_decomp _ _ _ hfh
      have hemed : e.medName = med.name := by
        have h' := he
        simp only [Bool.and_eq_true, beq_iff_eq] at h'
        exact h'.1
      rw [removeLastMedicationDose_eq_found c p medId l r med h1 h2 e hmeds hl hid hh he
        hfirst]
      intro m hm
      have hm' : m ∈ l ++ { med with takenToday := takenFlag c (h1 ++ h2) med } :: r := hm
      show m.takenToday = true ↔ getTargetDoses m ≤ countTodayByName c (h1 ++ h2) m.name
      have hcount : ∀ m' : Medication, m'.name ≠ med.name →
          countTodayByName c (h1 ++ h2) m'.name = countTodayByName c p.history m'.name := by
        intro m' hm'ne
        rw [hh, countTodayByName_append, countTodayByName_append,
          countTodayByName_cons_miss c _ _ _ (hpredm m' hm'ne e hemed)]
      rcases List.mem_append.mp hm' with hml | hmc
      · rw [hcount m (hnames m (List.mem_append_left r hml))]
        exact hcons m (by rw [hmeds]; simp [hml])
      · rcases List.mem_cons.mp hmc with rfl | hmr
        · show takenFlag c (h1 ++ h2) med = true ↔
            getTargetDoses med ≤ countTodayByName c (h1 ++ h2) med.name
          simp [takenFlag]
        · rw [hcount m (hnames m (List.mem_append_right l hmr))]
          exact hcons m (by rw [hmeds]; simp [hmr])
  · -- resetDailyTracking
    intro m hm
    obtain ⟨x, hx, rfl⟩ := List.mem_map.mp hm
    rfl

theorem cache_consistency_after_ops_witness :
    cacheConsistent sampleClock
      (recordMedicationDose sampleClock sampleProfile "med1" "Manual") ∧
    cacheConsistent sampleClock
      (removeLastMedicationDose sampleClock sampleProfile "med1") ∧
    ∀ m ∈ (resetDailyTracking sampleProfile).medications, m.takenToday = false :=
  cache_consistency_after_ops sampleClock sampleProfile "med1" "Manual" [] [aspirina]
    metformina rfl (by simp) rfl (by decide) (by decide)

/-! ### Lemmas for the reminder de-duplication claim -/

theorem keyCount_nil (k : String) : keyCount [] k = 0 := rfl

theorem keyCount_append (l1 l2 : List ReminderEvent) (k : String) :
    keyCount (l1 ++ l2) k = keyCount l1 k + keyCount l2 k := by
  simp [keyCount, List.countP_append]

theorem keyCount_singleton (ev : ReminderEvent) (k : String) :
    keyCount [ev] k = if ev.key = k then 1 else 0 := by
  by_cases h : ev.key = k <;> simp [keyCount, List.countP_cons, h]

theorem foldl_preserves {β : Type u} {α : Type v} (P : β → Prop) (f : β → α → β)
    (hf : ∀ acc x, P acc → P (f acc x)) :
    ∀ (l : List α) (acc : β), P acc → P (l.foldl f acc) := by
  intro l
  induction l with
  | nil => intro acc h; exact h
  | cons a l ih => intro acc h; exact ih _ (hf acc a h)

/-- Emitting a reminder whose key is not yet in the session set preserves the
de-duplication invariant. -/
theorem KInv_emit (sent0 : List String) (k : String) (b : Nat)
    (acc : List String × List ReminderEvent) (ev : ReminderEvent)
    (hk : ev.key ∉ acc.1) (h : KInv sent0 k b acc) :
    KInv sent0 k b (ev.key :: acc.1, acc.2 ++ [ev]) := by
  obtain ⟨h1, h2, h3, h4, h5⟩ := h
  have hc : keyCount (acc.2 ++ [ev]) k =
      keyCount acc.2 k + (if ev.key = k then 1 else 0) := by
    rw [keyCount_append, keyCount_singleton]
  by_cases hkk : ev.key = k
  · subst hkk
    rw [if_pos rfl] at hc
    have hzero : b + keyCount acc.2 ev.key = 0 := by
      by_contra hnz
      exact hk (h3 (by omega))
    refine ⟨fun _ => List.mem_cons_self _ _, ?_, fun _ => List.mem_cons_self _ _, ?_, ?_⟩
    · show b + keyCount (acc.2 ++ [ev]) ev.key ≤ 1
      rw [hc]; omega
    · intro hs; exact absurd (h1 hs) hk
    · intro _; right
      show 1 ≤ b + keyCount (acc.2 ++ [ev]) ev.key
      rw [hc]; omega
  · have hcc : keyCount (acc.2 ++ [ev]) k = keyCount acc.2 k := by
      rw [hc, if_neg hkk]; omega
    refine ⟨fun hs => List.mem_cons_of_mem _ (h1 hs), ?_, ?_, ?_, ?_⟩
    · show b + keyCount (acc.2 ++ [ev]) k ≤ 1
      rw [hcc]; exact h2
    · intro hge
      rw [show b + keyCount (acc.2 ++ [ev]) k = b + keyCount acc.2 k by rw [hcc]] at hge
      exact List.mem_cons_of_mem _ (h3 hge)
    · intro hs
      show b + keyCount (acc.2 ++ [ev]) k = 0
      rw [hcc]; exact h4 hs
    · intro hmem
      rcases List.mem_cons.mp hmem with rfl | hmem2
      · exact absurd rfl hkk
      · rcases h5 hmem2 with hs | hge
        · exact Or.inl hs
        · right
          show 1 ≤ b + keyCount (acc.2 ++ [ev]) k
          rw [hcc]; exact hge

theorem checkOneTime_KInv (sent0 : List String) (k : String) (b : Nat)
    (med : Medication) (cm : Int) (day : Nat)
    (acc : List String × List ReminderEvent) (t : String)
    (h : KInv sent0 k b acc) :
    KInv sent0 k b (checkOneTime med cm day acc t) := by
  cases hg : getMinutesOfDay t with
  | none => simpa [checkOneTime, hg] using h
  | some sched =>
    simp only [checkOneTime, hg]
    by_cases hw : 0 ≤ cm - sched ∧ cm - sched ≤ 2
    · rw [if_pos hw]
      by_cases hk : (med.id ++ "-" ++ t ++ "-" ++ toString day) ∈ acc.1
      · rw [if_pos hk]; exact h
      · rw [if_neg hk]
        exact KInv_emit sent0 k b acc
          ⟨med.id ++ "-" ++ t ++ "-" ++ toString day, "Hora de tu medicamento",
            "Es hora de tomar: " ++ med.name ++ " (" ++ med.dosage ++ ")"⟩ hk h
    · rw [if_neg hw]; exact h

theorem checkOneTime_mono (med : Medication) (cm : Int) (day : Nat)
    (acc : List String × List ReminderEvent) (t : String) (k : String)
    (h : k ∈ acc.1) : k ∈ (checkOneTime med cm day acc t).1 := by
  cases hg : getMinutesOfDay t with
  | none => simpa [checkOneTime, hg] using h
  | some sched =>
    simp only [checkOneTime, hg]
    by_cases hw : 0 ≤ cm - sched ∧ cm - sched ≤ 2
    · rw [if_pos hw]
      by_cases hk : (med.id ++ "-" ++ t ++ "-" ++ toString day) ∈ acc.1
      · rw [if_pos hk]; exact h
      · rw [if_neg hk]; exact List.mem_cons_of_mem _ h
    · rw [if_neg hw]; exact h

theorem checkOneTime_covers (med : Medication) (cm : Int) (day : Nat)
    (acc : List String × List ReminderEvent) (t : String) (sched : Int)
    (hg : getMinutesOfDay t = some sched) (hw : 0 ≤ cm - sched ∧ cm - sched ≤ 2) :
    (med.id ++ "-" ++ t ++ "-" ++ toString day) ∈ (checkOneTime med cm day acc t).1 := by
  simp only [checkOneTime, hg]
  rw [if_pos hw]
  by_cases hk : (med.id ++ "-" ++ t ++ "-" ++ toString day) ∈ acc.1
  · rw [if_pos hk]; exact hk
  · rw [if_neg hk]; exact List.mem_cons_self _ _

theorem foldl_times_mono (med : Medication) (cm : Int) (day : Nat) (ts : List String)
    (k : String) :
    ∀ acc, k ∈ acc.1 → k ∈ (ts.foldl (checkOneTime med cm day) acc).1 := by
  induction ts with
  | nil => intro acc h; exact h
  | cons t ts ih => intro acc h; exact ih _ (checkOneTime_mono med cm day acc t k h)

theorem foldl_times_covers (med : Medication) (cm : Int) (day : Nat) (ts : List String)
    (t : String) (sched : Int) (ht : t ∈ ts) (hg : getMinutesOfDay t = some sched)
    (hw : 0 ≤ cm - sched ∧ cm - sched ≤ 2) :
    ∀ acc, (med.id ++ "-" ++ t ++ "-" ++ toString day) ∈
      (ts.foldl (checkOneTime med cm day) acc).1 := by
  intro acc
  obtain ⟨ts1, ts2, rfl⟩ := List.append_of_mem ht
  rw [List.foldl_append, List.foldl_cons]
  exact foldl_times_mono med cm day ts2 _ _ (checkOneTime_covers med cm day _ t sched hg hw)

theorem checkMedStep_KInv (sent0 : List String) (k : String) (b : Nat)
    (cm : Int) (day : Nat) (acc : List String × List ReminderEvent) (med : Medication)
    (h : KInv sent0 k b acc) : KInv sent0 k b (checkMedStep cm day acc med) := by
  unfold checkMedStep
  by_cases hc : med.scheduleType = ScheduleType.fixed ∧ med.fixedTimes.isSome ∧
      med.takenToday = false
  · rw [if_pos hc]
    exact foldl_preserves (KInv sent0 k b) (checkOneTime med cm day)
      (fun a t hh => checkOneTime_KInv sent0 k b med cm day a t hh)
      (med.fixedTimes.getD []) acc h
  · rw [if_neg hc]; exact h

theorem checkMedStep_mono (cm : Int) (day : Nat)
    (acc : List String × List ReminderEvent) (med : Medication) (k : String)
    (h : k ∈ acc.1) : k ∈ (checkMedStep cm day acc med).1 := by
  unfold checkMedStep
  by_cases hc : med.scheduleType = ScheduleType.fixed ∧ med.fixedTimes.isSome ∧
      med.takenToday = false
  · rw [if_pos hc]
    exact foldl_times_mono med cm day (med.fixedTimes.getD []) k acc h
  · rw [if_neg hc]; exact h

theorem checkMedStep_covers (cm : Int) (day : Nat)
    (acc : List String × List ReminderEvent) (med : Medication) (ts : List String)
    (t : String) (sched : Int)
    (hfix : med.scheduleType = ScheduleType.fixed) (hft : med.fixedTimes = some ts)
    (hnt : med.takenToday = false) (ht : t ∈ ts) (hg : getMinutesOfDay t = some sched)
    (hw : 0 ≤ cm - sched ∧ cm - sched ≤ 2) :
    (med.id ++ "-" ++ t ++ "-" ++ toString day) ∈ (checkMedStep cm day acc med).1 := by
  unfold checkMedStep
  rw [if_pos ⟨hfix, by rw [hft]; rfl, hnt⟩, show med.fixedTimes.getD [] = ts by rw [hft]; rfl]
  exact foldl_times_covers med cm day ts t sched ht hg hw acc

theorem checkMedications_KInv (p : UserProfile) (cm : Int) (day : Nat)
    (sent0 : List String) (k : String) (b : Nat) (sent : List String)
    (hinit : KInv sent0 k b (sent, ([] : List ReminderEvent))) :
    KInv sent0 k b (checkMedications p cm day sent) := by
  unfold checkMedications
  exact foldl_preserves (KInv sent0 k b) (checkMedStep cm day)
    (fun acc med h => checkMedStep_KInv sent0 k b cm day acc med h)
    p.medications (sent, []) hinit

theorem checkMedications_mono (p : UserProfile) (cm : Int) (day : Nat)
    (sent : List String) (k : String) (h : k ∈ sent) :
    k ∈ (checkMedications p cm day sent).1 := by
  unfold checkMedications
  exact foldl_preserves (fun acc => k ∈ acc.1) (checkMedStep cm day)
    (fun acc med hh => checkMedStep_mono cm day acc med k hh)
    p.medications (sent, []) h

theorem checkMedications_covers (p : UserProfile) (cm : Int) (day : Nat)
    (sent : List String) (med : Medication) (ts : List String) (t : String) (sched : Int)
    (hmem : med ∈ p.medications) (hfix : med.scheduleType = ScheduleType.fixed)
    (hft : med.fixedTimes = some ts) (hnt : med.takenToday = false)
    (ht : t ∈ ts) (hg : getMinutesOfDay t = some sched)
    (hw : 0 ≤ cm - sched ∧ cm - sched ≤ 2) :
    (med.id ++ "-" ++ t ++ "-" ++ toString day) ∈ (checkMedications p cm day sent).1 := by
  unfold checkMedications
  obtain ⟨ms1, ms2, hms⟩ := List.append_of_mem hmem
  rw [hms, List.foldl_append, List.foldl_cons]
  exact foldl_preserves (fun acc => (med.id ++ "-" ++ t ++ "-" ++ toString day) ∈ acc.1)
    (checkMedStep cm day)
    (fun acc m hh => checkMedStep_mono cm day acc m _ hh) ms2 _
    (checkMedStep_covers cm day _ med ts t sched hfix hft hnt ht hg hw)

theorem pollStep_KInv (p : UserProfile) (day : Nat) (sent0 : List String) (k : String)
    (acc : List String × List ReminderEvent) (cm : Int)
    (h : KInv sent0 k 0 acc) : KInv sent0 k 0 (pollStep p day acc cm) := by
  unfold pollStep
  obtain ⟨h1, h2, h3, h4, h5⟩ := h
  have hpoll := checkMedications_KInv p cm day sent0 k (keyCount acc.2 k) acc.1
    ⟨h1, by rw [keyCount_nil]; omega,
     fun hge => h3 (by rw [keyCount_nil] at hge; omega),
     fun hs => by rw [keyCount_nil]; have := h4 hs; omega,
     fun hm => (h5 hm).imp id (fun hge => by rw [keyCount_nil]; omega)⟩
  obtain ⟨g1, g2, g3, g4, g5⟩ := hpoll
  have hkc : keyCount (acc.2 ++ (checkMedications p cm day acc.1).2) k =
      keyCount acc.2 k + keyCount (checkMedications p cm day acc.1).2 k :=
    keyCount_append _ _ k
  refine ⟨g1, ?_, ?_, ?_, ?_⟩
  · show 0 + keyCount (acc.2 ++ (checkMedications p cm day acc.1).2) k ≤ 1
    rw [hkc]; omega
  · intro hge
    refine g3 ?_
    have hge' : 1 ≤ 0 + keyCount (acc.2 ++ (checkMedications p cm day acc.1).2) k := hge
    rw [hkc] at hge'
    omega
  · intro hs
    show 0 + keyCount (acc.2 ++ (checkMedications p cm day acc.1).2) k = 0
    rw [hkc]
    have := g4 hs
    omega
  · intro hm
    refine (g5 hm).imp id (fun hge => ?_)
    show 1 ≤ 0 + keyCount (acc.2 ++ (checkMedications p cm day acc.1).2) k
    rw [hkc]; omega

theorem pollStep_mono (p : UserProfile) (day : Nat)
    (acc : List String × List ReminderEvent) (cm : Int) (k : String)
    (h : k ∈ acc.1) : k ∈ (pollStep p day acc cm).1 := by
  unfold pollStep
  exact checkMedications_mono p cm day acc.1 k h

theorem runPolls_KInv (p : UserProfile) (day : Nat) (ticks : List Int)
    (sent0 : List String) (k : String) :
    KInv sent0 k 0 (runPolls p day ticks sent0) := by
  unfold runPolls
  refine foldl_preserves (KInv sent0 k 0) (pollStep p day)
    (fun acc cm h => pollStep_KInv p day sent0 k acc cm h) ticks (sent0, []) ?_
  refine ⟨fun h => h, ?_, ?_, ?_, fun h => Or.inl h⟩
  · rw [keyCount_nil]
    omega
  · intro hge
    rw [keyCount_nil] at hge
    omega
  · intro _
    rw [keyCount_nil]

theorem runPolls_covers (p : UserProfile) (day : Nat) (ticks : List Int)
    (sent0 : List String) (cm : Int) (med : Medication) (ts : List String) (t : String)
    (sched : Int)
    (hcm : cm ∈ ticks) (hmem : med ∈ p.medications)
    (hfix : med.scheduleType = ScheduleType.fixed)
    (hft : med.fixedTimes = some ts) (hnt : med.takenToday = false)
    (ht : t ∈ ts) (hg : getMinutesOfDay t = some sched)
    (hw : 0 ≤ cm - sched ∧ cm - sched ≤ 2) :
    (med.id ++ "-" ++ t ++ "-" ++ toString day) ∈ (runPolls p day ticks sent0).1 := by
  unfold runPolls
  obtain ⟨tk1, tk2, htk⟩ := List.append_of_mem hcm
  rw [htk, List.foldl_append, List.foldl_cons]
  refine foldl_preserves (fun acc => (med.id ++ "-" ++ t ++ "-" ++ toString day) ∈ acc.1)
    (pollStep p day) (fun acc cm' h => pollStep_mono p day acc cm' _ h) tk2 _ ?_
  show (med.id ++ "-" ++ t ++ "-" ++ toString day) ∈
    (pollStep p day (List.foldl (pollStep p day) (sent0, []) tk1) cm).1
  unfold pollStep
  exact checkMedications_covers p cm day _ med ts t sched hmem hfix hft hnt ht hg hw

/-- Claim C9: over a day's poll ticks (the profile, with the medication fixed,
uncompleted and carrying the configured time, and the day staying fixed), the
30-second polling check emits *exactly one* primary reminder carrying the
de-duplication key of a (medication, scheduled time, day-of-month) pair whose
on-time window `0 ≤ now − scheduled ≤ 2` is hit by at least one tick and whose
key is not already in the session set — never one per poll tick.  Nearby fixed
times (e.g. 5 minutes apart) have distinct keys, so each gets its own single
reminder; the witness instantiates exactly that scenario. -/
theorem checkMedications_once_per_key (p : UserProfile) (day : Nat) (ticks : List Int)
    (sent0 : List String) (med : Medication) (ts : List String) (t : String) (sched : Int)
    (hmem : med ∈ p.medications) (hfix : med.scheduleType = ScheduleType.fixed)
    (hft : med.fixedTimes = some ts) (hnt : med.takenToday = false)
    (ht : t ∈ ts) (hparse : getMinutesOfDay t = some sched)
    (hwin : ∃ cm ∈ ticks, 0 ≤ cm - sched ∧ cm - sched ≤ 2)
    (hnew : (med.id ++ "-" ++ t ++ "-" ++ toString day) ∉ sent0) :
    keyCount (runPolls p day ticks sent0).2
      (med.id ++ "-" ++ t ++ "-" ++ toString day) = 1 := by
  obtain ⟨cm, hcm, hw⟩ := hwin
  have hinv := runPolls_KInv p day ticks sent0 (med.id ++ "-" ++ t ++ "-" ++ toString day)
  have hkmem := runPolls_covers p day ticks sent0 cm med ts t sched hcm hmem hfix hft hnt
    ht hparse hw
  obtain ⟨_, h2, _, _, h5⟩ := hinv
  rcases h5 hkmem with hs | hge
  · exact absurd hs hnew
  · omega

theorem checkMedications_once_per_key_witness :
    keyCount (runPolls pollProfile 11 [480, 480, 481, 485, 485, 486] []).2
      (metTwoClose.id ++ "-" ++ "08:00" ++ "-" ++ toString (11 : Nat)) = 1 :=
  checkMedications_once_per_key pollProfile 11 [480, 480, 481, 485, 485, 486] []
    metTwoClose ["08:00", "08:05"] "08:00" 480 (by decide) rfl rfl rfl (by decide)
    (by decide) ⟨480, by decide, by decide, by decide⟩ (by simp)
